import Mathlib

/-!
Verification of the tick array core: the unoptimized and backend-delegating
vector-operations layer (src/lib/include/tick/array/vector_operations.h), the
CSR sparse-array dot product exercised by the serializer test
(src/lib/cpp-test/array/serializer_gtest.cpp), and the serialization codec
described in the specification.

Buffers are embedded as total functions `Nat -> T`; an in-place C++ loop
becomes a function returning the updated buffer.  `ulong` lengths become
`Nat`.  Element types are embedded as an arbitrary ring where the C++ code is
templated over `T`.
-/

namespace tick

/-- Embedding of vector_operations_unoptimized::dot: result starts at 0 and
the loop adds x[i] * y[i] for i = 0 .. n-1. -/
def dot {T : Type} [Ring T] (n : Nat) (x y : Nat → T) : T :=
  match n with
  | 0 => 0
  | m + 1 => dot m x y + x m * y m

/-- Embedding of vector_operations_unoptimized::sum, which is
std::accumulate(x, x + n, promote_t<T>\x7b0\x7d): a left-to-right fold into the
promoted accumulator type P, starting from the promoted zero `z`, where
`prom` is the implicit conversion from the storage type to P. -/
def sum {T P : Type} [Add P] (z : P) (prom : T → P) (n : Nat) (x : Nat → T) : P :=
  match n with
  | 0 => z
  | m + 1 => sum z prom m x + prom (x m)

/-- Embedding of vector_operations_unoptimized::scale: the loop sets
x[i] *= alpha for i = 0 .. n-1. -/
def scale {T : Type} [Ring T] (n : Nat) (alpha : T) (x : Nat → T) : Nat → T :=
  match n with
  | 0 => x
  | m + 1 =>
    let xm := scale m alpha x
    Function.update xm m (xm m * alpha)

/-- Embedding of vector_operations_unoptimized::set: the loop sets
x[i] = alpha for i = 0 .. n-1. -/
def set {T : Type} (n : Nat) (alpha : T) (x : Nat → T) : Nat → T :=
  match n with
  | 0 => x
  | m + 1 => Function.update (set m alpha x) m alpha

/-- Embedding of vector_operations_unoptimized::mult_incr: the loop sets
y[i] += alpha * x[i] for i = 0 .. n-1. -/
def mult_incr {T : Type} [Ring T] (n : Nat) (alpha : T) (x y : Nat → T) : Nat → T :=
  match n with
  | 0 => y
  | m + 1 =>
    let ym := mult_incr m alpha x y
    Function.update ym m (ym m + alpha * x m)

/-- Capability record of the vector-operations dispatch layer: the five
operations every variant provides (the optional absolute_sum is omitted).
T is the storage element type, P the promoted accumulator type. -/
structure VectorOps (T P : Type) where
  dot : Nat → (Nat → T) → (Nat → T) → T
  sum : Nat → (Nat → T) → P
  scale : Nat → T → (Nat → T) → Nat → T
  set : Nat → T → (Nat → T) → Nat → T
  mult_incr : Nat → T → (Nat → T) → (Nat → T) → Nat → T

/-- The unoptimized variant packaged as a capability record; `z` is the
promoted zero promote_t<T>\x7b0\x7d and `prom` the storage-to-promoted conversion. -/
def vector_operations_unoptimized (T P : Type) [Ring T] [Add P]
    (z : P) (prom : T → P) : VectorOps T P :=
  { dot := tick.dot
    sum := tick.sum z prom
    scale := tick.scale
    set := tick.set
    mult_incr := tick.mult_incr }

/-- Embedding of the generic template vector_operations_cblas<T>, declared in
the source as a struct inheriting vector_operations_unoptimized<T> with an
empty body: for every element type other than float and double it provides
exactly the inherited operations. -/
def vector_operations_cblas (T P : Type) [Ring T] [Add P]
    (z : P) (prom : T → P) : VectorOps T P :=
  vector_operations_unoptimized T P z prom

/-- Embedding of vector_operations_cblas_base<T>::sum, which calls
vector_operations_unoptimized<T>\x7b\x7d.sum(n, x). -/
def vector_operations_cblas_base_sum (T P : Type) [Ring T] [Add P]
    (z : P) (prom : T → P) : Nat → (Nat → T) → P :=
  (vector_operations_unoptimized T P z prom).sum

/-- Embedding of vector_operations_cblas_base<T>::set, which calls
vector_operations_unoptimized<T>\x7b\x7d.set(n, alpha, x). -/
def vector_operations_cblas_base_set (T P : Type) [Ring T] [Add P]
    (z : P) (prom : T → P) : Nat → T → (Nat → T) → Nat → T :=
  (vector_operations_unoptimized T P z prom).set

/-- Embedding of the float and double specializations
vector_operations_cblas<float> and vector_operations_cblas<double>: dot, scale
and mult_incr forward to the external BLAS routines (cblas_sdot/cblas_ddot,
cblas_sscal/cblas_dscal, cblas_saxpy/cblas_daxpy — modelled as parameters,
their semantics external to this repository), while sum and set come from
vector_operations_cblas_base; the CATLAS set fast path is absent, matching a
build without TICK_CATLAS_AVAILABLE. -/
def vector_operations_cblas_fp (T P : Type) [Ring T] [Add P]
    (z : P) (prom : T → P)
    (blas_dot : Nat → (Nat → T) → (Nat → T) → T)
    (blas_scal : Nat → T → (Nat → T) → Nat → T)
    (blas_axpy : Nat → T → (Nat → T) → (Nat → T) → Nat → T) : VectorOps T P :=
  { dot := blas_dot
    sum := vector_operations_cblas_base_sum T P z prom
    scale := blas_scal
    set := vector_operations_cblas_base_set T P z prom
    mult_incr := blas_axpy }

end tick

/-- Modelled from the spec: promote.h (the promoted-type traits header) is not
under src/. The spec says promotion maps an integer storage type to a wider
type for cumulative results; wrap64 reduces an integer to the balanced
two's-complement representative of a 64-bit machine word, the arithmetic of
the modelled promoted integer type. -/
def wrap64 (z : Int) : Int :=
  (z + 9223372036854775808) % 18446744073709551616 - 9223372036854775808

/-- Modelled from the spec: the promoted 64-bit integer accumulator type, an
integer carried in two's complement modulo 2^64. -/
structure Int64 where
  val : Int

/-- Machine addition of the modelled promoted integer type: add, then wrap to
64 bits. -/
def Int64.add (a b : Int64) : Int64 :=
  ⟨wrap64 (a.val + b.val)⟩

instance : Add Int64 := ⟨Int64.add⟩

/-- Mathematical (unbounded) sum of the first n buffer elements. -/
def exactSum (n : Nat) (x : Nat → Int) : Int :=
  match n with
  | 0 => 0
  | m + 1 => exactSum m x + x m

/-- Modelled from the spec: the error taxonomy of section 7 —
DimensionMismatch (operand shapes incompatible), CorruptData (serialized
bytes inconsistent with declared shape/length), TypeMismatch (decode
requested with the wrong concrete element/layout type). -/
inductive TickError
  | dimensionMismatch
  | corruptData
  | typeMismatch
deriving DecidableEq

/-- Modelled from the spec: the serializer and array classes
(tick/array/serializer.h and the array headers) are not under src/, only
their test is. An Encoding is the fixed-width bit-level stream code of an
element type: enc writes an element's bit pattern as one word of the stream,
dec reads a word back; dec_enc says a written pattern is read back
bit-for-bit. -/
structure Encoding (α : Type) where
  enc : α → Nat
  dec : Nat → Option α
  dec_enc : ∀ a, dec (enc a) = some a

/-- Bit patterns of a w-bit element type (w = 32 for single precision, 64
for double precision): the stream stores the raw pattern. -/
def encodingBits (w : Nat) : Encoding (Fin (2 ^ w)) where
  enc := Fin.val
  dec := fun n => if h : n < 2 ^ w then some ⟨n, h⟩ else none
  dec_enc := fun a => by simp [a.isLt]

/-- Exact stream code for integer-valued elements (the double-precision
values of the serializer test are small integers, on which double arithmetic
and its bit encoding are exact): the standard signed pairing with a word. -/
def encodingInt : Encoding Int where
  enc := fun z => if 0 ≤ z then 2 * z.toNat else 2 * (-z).toNat - 1
  dec := fun n =>
    if n % 2 = 0 then some ((n / 2 : Nat) : Int) else some (-(((n + 1) / 2 : Nat) : Int))
  dec_enc := fun z => by
    by_cases h : 0 ≤ z
    · have h2 : (2 * z.toNat) % 2 = 0 := by omega
      simp only [h, if_true, h2]
      congr 1
      omega
    · have h1 : 1 ≤ (-z).toNat := by omega
      have h2 : ¬ (2 * (-z).toNat - 1) % 2 = 0 := by omega
      simp only [h, if_false, h2]
      congr 1
      omega

/-- Modelled from the spec: a 1-D dense array, a size and its element
buffer; the invariant data.length = size is the well-formedness below. -/
structure DenseArray1d (α : Type) where
  size : Nat
  data : List α
deriving DecidableEq

/-- Modelled from the spec: a 2-D dense array in row-major order with
data.length = n_rows * n_cols as well-formedness. -/
structure DenseArray2d (α : Type) where
  n_rows : Nat
  n_cols : Nat
  data : List α
deriving DecidableEq

/-- Modelled from the spec: a CSR sparse 2-D array — row pointers
(length n_rows + 1), column indices and values (both of length nnz). -/
structure SparseArray2d (α : Type) where
  n_rows : Nat
  n_cols : Nat
  row_indices : List Nat
  indices : List Nat
  data : List α
deriving DecidableEq

/-- Structural completeness of a 1-D dense array. -/
def DenseArray1d.wellFormed {α : Type} (A : DenseArray1d α) : Prop :=
  A.data.length = A.size

/-- Structural completeness of a 2-D dense array. -/
def DenseArray2d.wellFormed {α : Type} (A : DenseArray2d α) : Prop :=
  A.data.length = A.n_rows * A.n_cols

/-- Structural completeness of a CSR array: a full row-pointer sequence and
as many column indices as values. -/
def SparseArray2d.wellFormed {α : Type} (A : SparseArray2d α) : Prop :=
  A.row_indices.length = A.n_rows + 1 ∧ A.indices.length = A.data.length

/-- Modelled from the spec: dense serialization layout
[rank][dim_0]...[dim_rank-1][element_count][elements...], 1-D case. -/
def serializeDense1d {α : Type} (E : Encoding α) (A : DenseArray1d α) : List Nat :=
  1 :: A.size :: A.data.length :: A.data.map E.enc

/-- Modelled from the spec: dense serialization layout, 2-D case. -/
def serializeDense2d {α : Type} (E : Encoding α) (A : DenseArray2d α) : List Nat :=
  2 :: A.n_rows :: A.n_cols :: A.data.length :: A.data.map E.enc

/-- Modelled from the spec: sparse CSR serialization layout
[n_rows][n_cols][nnz][row_indices...][col_indices...][values...]. -/
def serializeSparse2d {α : Type} (E : Encoding α) (A : SparseArray2d α) : List Nat :=
  A.n_rows :: A.n_cols :: A.data.length :: (A.row_indices ++ A.indices ++ A.data.map E.enc)

/-- Reads k words off the stream; a stream with fewer than k words left is
CorruptData. -/
def readMany (k : Nat) (ts : List Nat) : Except TickError (List Nat × List Nat) :=
  if k ≤ ts.length then .ok (ts.take k, ts.drop k) else .error .corruptData

/-- Decodes every word of a list as an element; a pattern invalid for the
requested element type is a TypeMismatch. -/
def decodeAll {α : Type} (E : Encoding α) : List Nat → Except TickError (List α)
  | [] => .ok []
  | t :: ts =>
    match E.dec t with
    | none => .error .typeMismatch
    | some a =>
      match decodeAll E ts with
      | .error e => .error e
      | .ok ds => .ok (a :: ds)

/-- Modelled from the spec: decoding a 1-D dense array. The caller chose the
concrete target type, so a rank other than 1 is a TypeMismatch; a declared
element count inconsistent with the declared size, or a truncated stream, is
CorruptData. Only a fully reconstructed array is ever returned. -/
def deserializeDense1d {α : Type} (E : Encoding α) :
    List Nat → Except TickError (DenseArray1d α)
  | r :: sz :: cnt :: ts =>
    if r ≠ 1 then .error .typeMismatch
    else if cnt ≠ sz then .error .corruptData
    else
      match readMany cnt ts with
      | .error e => .error e
      | .ok (ws, _) =>
        match decodeAll E ws with
        | .error e => .error e
        | .ok ds => .ok ⟨sz, ds⟩
  | _ => .error .corruptData

/-- Modelled from the spec: decoding a 2-D dense array; the element count
must agree with n_rows * n_cols. -/
def deserializeDense2d {α : Type} (E : Encoding α) :
    List Nat → Except TickError (DenseArray2d α)
  | r :: nr :: nc :: cnt :: ts =>
    if r ≠ 2 then .error .typeMismatch
    else if cnt ≠ nr * nc then .error .corruptData
    else
      match readMany cnt ts with
      | .error e => .error e
      | .ok (ws, _) =>
        match decodeAll E ws with
        | .error e => .error e
        | .ok ds => .ok ⟨nr, nc, ds⟩
  | _ => .error .corruptData

/-- Modelled from the spec: decoding a sparse CSR 2-D array — header
n_rows, n_cols, nnz, then n_rows + 1 row pointers, nnz column indices and
nnz values; a stream exhausted before all declared entries are read is
CorruptData. -/
def deserializeSparse2d {α : Type} (E : Encoding α) :
    List Nat → Except TickError (SparseArray2d α)
  | nr :: nc :: nnz :: ts =>
    match readMany (nr + 1) ts with
    | .error e => .error e
    | .ok (ris, ts1) =>
      match readMany nnz ts1 with
      | .error e => .error e
      | .ok (cis, ts2) =>
        match readMany nnz ts2 with
        | .error e => .error e
        | .ok (ws, _) =>
          match decodeAll E ws with
          | .error e => .error e
          | .ok ds => .ok ⟨nr, nc, ris, cis, ds⟩
  | _ => .error .corruptData

/-- Holds when a decode result is an error or an array satisfying wf —
never a partially populated array. -/
def decodedOk {β : Type} (wf : β → Prop) : Except TickError β → Prop
  | .ok a => wf a
  | .error _ => True

/-- Modelled from the spec: view_row(sparse, r) is the read-only (column,
value) sub-sequence of row r, the CSR segment from row_indices[r] to
row_indices[r+1]. -/
def view_row {α : Type} (A : SparseArray2d α) (r : Nat) : List (Nat × α) :=
  let s := A.row_indices.getD r 0
  let e := A.row_indices.getD (r + 1) 0
  ((A.indices.drop s).take (e - s)).zip ((A.data.drop s).take (e - s))

/-- Modelled from the spec: dot(dense_vector, sparse_row_view) iterates the
stored (column, value) pairs and accumulates value * dense_vector[column];
unstored columns contribute zero. -/
def sparseRowDot (v : List Int) (row : List (Nat × Int)) : Int :=
  row.foldl (fun acc p => acc + p.2 * v.getD p.1 0) 0

/-- Modelled from the spec: the dense-array dot operation validates that the
dimensions of both operands match, failing with DimensionMismatch on a
mismatch, and delegates the accumulation to the dispatch layer. -/
def DenseArray1d.dot {T : Type} [Ring T] (x y : DenseArray1d T) : Except TickError T :=
  if x.size ≠ y.size then .error .dimensionMismatch
  else .ok (tick.dot x.size (fun i => x.data.getD i 0) (fun i => y.data.getD i 0))

/-- The CSR example of the serializer test: row_indices=[0,2,4,7,8],
indices=[0,1,1,3,2,3,4,5], data=[10,20,30,40,50,60,70,80], 4 rows, 6 cols. -/
def exampleSparseArray : SparseArray2d Int :=
  ⟨4, 6, [0, 2, 4, 7, 8], [0, 1, 1, 3, 2, 3, 4, 5], [10, 20, 30, 40, 50, 60, 70, 80]⟩

/-- The dense vector of the serializer test. -/
def exampleDotArray : List Int :=
  [1, 2, 3, 4, 5, 6]

/-- The array reloaded from a serialize/deserialize cycle of the test CSR
example (the error branch is unreachable and returns an empty placeholder). -/
def loadedSparseArray : SparseArray2d Int :=
  match deserializeSparse2d encodingInt (serializeSparse2d encodingInt exampleSparseArray) with
  | .ok A => A
  | .error _ => ⟨0, 0, [], [], []⟩

/-- Concrete double-precision arrays (64-bit patterns; the first pattern
is the IEEE-754 encoding of 1.0) exercising the round trip. -/
def witD1f64 : DenseArray1d (Fin (2 ^ 64)) :=
  ⟨2, [⟨4607182418800017408, by norm_num⟩, ⟨0, by norm_num⟩]⟩

/-- Concrete 1-by-2 double-precision dense matrix for the round trip. -/
def witD2f64 : DenseArray2d (Fin (2 ^ 64)) :=
  ⟨1, 2, [⟨13830554455654793216, by norm_num⟩, ⟨42, by norm_num⟩]⟩

/-- Concrete double-precision CSR array for the round trip. -/
def witSf64 : SparseArray2d (Fin (2 ^ 64)) :=
  ⟨2, 3, [0, 1, 2], [2, 0], [⟨4621819117588971520, by norm_num⟩, ⟨1, by norm_num⟩]⟩

/-- Concrete single-precision (32-bit pattern of 1.0f) dense array for the
round trip. -/
def witD1f32 : DenseArray1d (Fin (2 ^ 32)) :=
  ⟨1, [⟨1065353216, by norm_num⟩]⟩

namespace tick

/-- Pointwise value of `scale`: indices below n are multiplied by alpha,
indices at or above n are untouched. -/
theorem scale_apply {T : Type} [Ring T] (n : Nat) (alpha : T) (x : Nat → T) (i : Nat) :
    scale n alpha x i = if i < n then x i * alpha else x i := by
  induction n with
  | zero => simp [scale]
  | succ m ih =>
    simp only [scale, Function.update]
    by_cases h : i = m
    · subst h
      simp [ih]
    · simp only [h, dif_neg, ne_eq, not_false_iff]
      rw [ih]
      rcases Nat.lt_trichotomy i m with hlt | heq | hgt
      · simp [hlt, Nat.lt_succ_of_lt hlt]
      · exact absurd heq h
      · have h1 : ¬ i < m := Nat.not_lt.mpr (Nat.le_of_lt hgt)
        have h2 : ¬ i < m + 1 := Nat.not_lt.mpr hgt
        simp [h1, h2]

/-- Pointwise value of `set`: indices below n read alpha, others keep the old
value. -/
theorem set_apply {T : Type} (n : Nat) (alpha : T) (x : Nat → T) (i : Nat) :
    set n alpha x i = if i < n then alpha else x i := by
  induction n with
  | zero => simp [set]
  | succ m ih =>
    simp only [set, Function.update]
    by_cases h : i = m
    · subst h
      simp
    · simp only [h, dif_neg, ne_eq, not_false_iff]
      rw [ih]
      rcases Nat.lt_trichotomy i m with hlt | heq | hgt
      · simp [hlt, Nat.lt_succ_of_lt hlt]
      · exact absurd heq h
      · have h1 : ¬ i < m := Nat.not_lt.mpr (Nat.le_of_lt hgt)
        have h2 : ¬ i < m + 1 := Nat.not_lt.mpr hgt
        simp [h1, h2]

/-- Pointwise value of `mult_incr`: indices below n gain alpha * x[i], others
keep the old value. -/
theorem mult_incr_apply {T : Type} [Ring T] (n : Nat) (alpha : T) (x y : Nat → T) (i : Nat) :
    mult_incr n alpha x y i = if i < n then y i + alpha * x i else y i := by
  induction n with
  | zero => simp [mult_incr]
  | succ m ih =>
    simp only [mult_incr, Function.update]
    by_cases h : i = m
    · subst h
      simp [ih]
    · simp only [h, dif_neg, ne_eq, not_false_iff]
      rw [ih]
      rcases Nat.lt_trichotomy i m with hlt | heq | hgt
      · simp [hlt, Nat.lt_succ_of_lt hlt]
      · exact absurd heq h
      · have h1 : ¬ i < m := Nat.not_lt.mpr (Nat.le_of_lt hgt)
        have h2 : ¬ i < m + 1 := Nat.not_lt.mpr hgt
        simp [h1, h2]

/-- Sum of a buffer with all entries below n equal to zero (identity
promotion) is zero. -/
theorem sum_id_zero {T : Type} [AddZeroClass T] (n : Nat) (b : Nat → T)
    (h : ∀ i, i < n → b i = 0) : sum (0 : T) id n b = 0 := by
  induction n with
  | zero => rfl
  | succ m ih =>
    simp only [sum, id]
    rw [ih (fun i hi => h i (Nat.lt_succ_of_lt hi)), h m (Nat.lt_succ_self m), add_zero]

end tick

/-- C4: after mult_incr(n, alpha, x, y), each element y[i] with i < n equals
the old y[i] plus alpha times x[i], i.e. mult_incr performs y += alpha*x in
place. -/
theorem mult_incr_adds_scaled (T : Type) [Ring T] (n : Nat) (alpha : T)
    (x y : Nat → T) (i : Nat) (h : i < n) :
    tick.mult_incr n alpha x y i = y i + alpha * x i := by
  rw [tick.mult_incr_apply]
  simp [h]

/-- Witness for C4 at concrete inputs. -/
theorem mult_incr_adds_scaled_witness :
    (0 : Nat) < 2 ∧
      tick.mult_incr 2 (3 : Int) (fun _ => 5) (fun _ => 7) 0 = 7 + 3 * 5 :=
  ⟨by decide, mult_incr_adds_scaled Int 2 3 (fun _ => 5) (fun _ => 7) 0 (by decide)⟩

/-- C6: scale(n, 1, x) leaves every element of x unchanged, and after
set(n, 0, x) the sum over the first n elements is 0. -/
theorem scale_one_id_set_zero_sum (T : Type) [Ring T] (n : Nat) (x : Nat → T) :
    tick.scale n (1 : T) x = x ∧
      tick.sum (0 : T) id n (tick.set n (0 : T) x) = 0 := by
  constructor
  · funext i
    rw [tick.scale_apply]
    split <;> simp
  · exact tick.sum_id_zero n _ (fun i hi => by rw [tick.set_apply]; simp [hi])

/-- C9: with n = 0 every unoptimized vector operation is a no-op: dot returns
0, sum returns the promoted zero, and scale, set, mult_incr return the buffers
unchanged, for arbitrary buffer arguments. -/
theorem vector_ops_empty_noop (T P : Type) [Ring T] [Add P] (z : P)
    (prom : T → P) (alpha : T) (x y : Nat → T) :
    tick.dot 0 x y = 0 ∧ tick.sum z prom 0 x = z ∧
      tick.scale 0 alpha x = x ∧ tick.set 0 alpha x = x ∧
      tick.mult_incr 0 alpha x y = y :=
  ⟨rfl, rfl, rfl, rfl, rfl⟩

/-- C10: frame condition — scale and set leave every index at or above n
unchanged, and mult_incr leaves every index of y at or above n unchanged
(dot, sum and the x argument of mult_incr are untouched by construction in
this pure embedding). -/
theorem vector_ops_frame (T : Type) [Ring T] (n : Nat) (alpha : T)
    (x y : Nat → T) (i : Nat) (h : n ≤ i) :
    tick.scale n alpha x i = x i ∧ tick.set n alpha x i = x i ∧
      tick.mult_incr n alpha x y i = y i := by
  have h1 : ¬ i < n := Nat.not_lt.mpr h
  exact ⟨by rw [tick.scale_apply]; simp [h1],
    by rw [tick.set_apply]; simp [h1],
    by rw [tick.mult_incr_apply]; simp [h1]⟩

/-- Witness for C10 at concrete inputs. -/
theorem vector_ops_frame_witness :
    (2 : Nat) ≤ 5 ∧
      (tick.scale 2 (3 : Int) (fun _ => 4) 5 = 4 ∧
        tick.set 2 (3 : Int) (fun _ => 4) 5 = 4 ∧
        tick.mult_incr 2 (3 : Int) (fun _ => 4) (fun _ => 6) 5 = 6) :=
  ⟨by decide, vector_ops_frame Int 2 3 (fun _ => 4) (fun _ => 6) 5 (by decide)⟩

/-- C3: the backend-delegating variant coincides with the unoptimized variant
on every operation for element types other than float and double (the generic
cblas template inherits everything), and even for the float/double
specializations its sum and set are exactly the unoptimized sum and set. -/
theorem cblas_delegates_to_unoptimized (T P : Type) [Ring T] [Add P]
    (z : P) (prom : T → P)
    (bd : Nat → (Nat → T) → (Nat → T) → T)
    (bs : Nat → T → (Nat → T) → Nat → T)
    (ba : Nat → T → (Nat → T) → (Nat → T) → Nat → T) :
    tick.vector_operations_cblas T P z prom =
        tick.vector_operations_unoptimized T P z prom ∧
      (tick.vector_operations_cblas_fp T P z prom bd bs ba).sum =
        (tick.vector_operations_unoptimized T P z prom).sum ∧
      (tick.vector_operations_cblas_fp T P z prom bd bs ba).set =
        (tick.vector_operations_unoptimized T P z prom).set :=
  ⟨rfl, rfl, rfl⟩

/-- Wrapping is stable under pre-wrapping the left addend. -/
theorem wrap64_wrap_add_left (a b : Int) : wrap64 (wrap64 a + b) = wrap64 (a + b) := by
  unfold wrap64
  omega

/-- Wrapping is the identity on values representable in 64 bits. -/
theorem wrap64_of_bounds (a : Int) (h1 : -9223372036854775808 ≤ a)
    (h2 : a < 9223372036854775808) : wrap64 a = a := by
  unfold wrap64
  omega

/-- Unfolding lemma for the modelled machine addition. -/
theorem Int64.val_add (a b : Int64) : (a + b).val = wrap64 (a.val + b.val) := rfl

/-- The accumulate loop of `sum` is exactly a left-to-right fold over the
promoted values of x[0..n). -/
theorem sum_eq_foldl {T P : Type} [Add P] (z : P) (prom : T → P) (n : Nat) (x : Nat → T) :
    tick.sum z prom n x = (List.range n).foldl (fun a i => a + prom (x i)) z := by
  induction n with
  | zero => rfl
  | succ m ih =>
    rw [tick.sum, List.range_succ, List.foldl_append, ih]
    rfl

/-- Running `sum` in the modelled 64-bit promoted type computes the wrap of
the mathematical sum. -/
theorem sum_int64_wrap (n : Nat) (x : Nat → Int) :
    (tick.sum (Int64.mk 0) Int64.mk n x).val = wrap64 (exactSum n x) := by
  induction n with
  | zero =>
    show (0 : Int) = wrap64 0
    unfold wrap64
    omega
  | succ m ih =>
    rw [tick.sum, Int64.val_add, ih, exactSum, wrap64_wrap_add_left]

/-- C5: sum(n, x) is the left-to-right sequential accumulation of x[0..n)
into the promoted accumulator starting from the promoted zero, and for the
modelled 64-bit promoted integer type it equals the exact mathematical sum
whenever that sum is representable in the promoted type, regardless of any
overflow in the narrower storage type. -/
theorem sum_promoted_exact (n : Nat) (x : Nat → Int)
    (h1 : -9223372036854775808 ≤ exactSum n x)
    (h2 : exactSum n x < 9223372036854775808) :
    tick.sum (Int64.mk 0) Int64.mk n x =
        (List.range n).foldl (fun a i => a + Int64.mk (x i)) (Int64.mk 0) ∧
      (tick.sum (Int64.mk 0) Int64.mk n x).val = exactSum n x := by
  refine ⟨sum_eq_foldl (Int64.mk 0) Int64.mk n x, ?_⟩
  rw [sum_int64_wrap, wrap64_of_bounds _ h1 h2]

/-- Witness for C5 at concrete inputs. -/
theorem sum_promoted_exact_witness :
    (-9223372036854775808 ≤ exactSum 2 (fun _ => 3) ∧
        exactSum 2 (fun _ => 3) < 9223372036854775808) ∧
      (tick.sum (Int64.mk 0) Int64.mk 2 (fun _ => 3)).val = exactSum 2 (fun _ => 3) :=
  ⟨⟨by decide, by decide⟩,
    (sum_promoted_exact 2 (fun _ => 3) (by decide) (by decide)).2⟩

/-- readMany on a stream beginning with a block of the requested length
returns exactly that block and the remainder. -/
theorem readMany_append (l rest : List Nat) (k : Nat) (h : l.length = k) :
    readMany k (l ++ rest) = .ok (l, rest) := by
  subst h
  unfold readMany
  rw [if_pos (by simp)]
  rw [List.take_left, List.drop_left]

/-- readMany of the full encoded element block consumes the whole stream. -/
theorem readMany_map_all {α : Type} (E : Encoding α) (l : List α) :
    readMany l.length (l.map E.enc) = .ok (l.map E.enc, []) := by
  unfold readMany
  rw [if_pos (by simp)]
  simp

/-- Decoding an encoded element list recovers it bit-for-bit. -/
theorem decodeAll_map_enc {α : Type} (E : Encoding α) (l : List α) :
    decodeAll E (l.map E.enc) = .ok l := by
  induction l with
  | nil => rfl
  | cons a l ih => simp [decodeAll, E.dec_enc, ih]

/-- A successful readMany returned exactly k words. -/
theorem readMany_ok_length (k : Nat) (ts ws rest : List Nat)
    (h : readMany k ts = .ok (ws, rest)) : ws.length = k := by
  unfold readMany at h
  split at h
  · rename_i hk
    cases h
    rw [List.length_take]
    omega
  · exact absurd h (by simp)

/-- A successful decodeAll returned one element per word. -/
theorem decodeAll_ok_length {α : Type} (E : Encoding α) (ws : List Nat) (ds : List α)
    (h : decodeAll E ws = .ok ds) : ds.length = ws.length := by
  induction ws generalizing ds with
  | nil =>
    unfold decodeAll at h
    cases h
    rfl
  | cons t ts ih =>
    unfold decodeAll at h
    cases hd : E.dec t with
    | none => rw [hd] at h; exact absurd h (by simp)
    | some a =>
      rw [hd] at h
      cases hr : decodeAll E ts with
      | error e => rw [hr] at h; exact absurd h (by simp)
      | ok ds2 =>
        rw [hr] at h
        cases h
        simp [ih ds2 hr]

/-- Round trip of the 1-D dense codec on well-formed arrays. -/
theorem round_dense1d {α : Type} (E : Encoding α) (A : DenseArray1d α)
    (h : A.data.length = A.size) :
    deserializeDense1d E (serializeDense1d E A) = .ok A := by
  simp only [serializeDense1d, deserializeDense1d]
  rw [if_neg (by simp)]
  rw [if_neg (by omega)]
  simp only [readMany_map_all, decodeAll_map_enc]

/-- Round trip of the 2-D dense codec on well-formed arrays. -/
theorem round_dense2d {α : Type} (E : Encoding α) (A : DenseArray2d α)
    (h : A.data.length = A.n_rows * A.n_cols) :
    deserializeDense2d E (serializeDense2d E A) = .ok A := by
  simp only [serializeDense2d, deserializeDense2d]
  rw [if_neg (by simp)]
  rw [if_neg (by omega)]
  simp only [readMany_map_all, decodeAll_map_enc]

/-- Round trip of the sparse CSR codec on well-formed arrays. -/
theorem round_sparse2d {α : Type} (E : Encoding α) (S : SparseArray2d α)
    (h3 : S.row_indices.length = S.n_rows + 1)
    (h4 : S.indices.length = S.data.length) :
    deserializeSparse2d E (serializeSparse2d E S) = .ok S := by
  unfold serializeSparse2d deserializeSparse2d
  rw [List.append_assoc]
  simp only [readMany_append _ _ _ h3, readMany_append _ _ _ h4,
    readMany_map_all, decodeAll_map_enc]

/-- decodedOk unfolded as an implication. -/
theorem decodedOk_iff {β : Type} (wf : β → Prop) (e : Except TickError β) :
    decodedOk wf e ↔ (∀ a, e = .ok a → wf a) := by
  cases e <;> simp [decodedOk]

/-- A successfully decoded 1-D dense array is structurally complete. -/
theorem deserializeDense1d_wf {α : Type} (E : Encoding α) (ts : List Nat) :
    decodedOk DenseArray1d.wellFormed (deserializeDense1d E ts) := by
  rw [decodedOk_iff]
  intro a ha
  rcases ts with _ | ⟨r, _ | ⟨sz, _ | ⟨cnt, ts⟩⟩⟩
  · simp [deserializeDense1d] at ha
  · simp [deserializeDense1d] at ha
  · simp [deserializeDense1d] at ha
  · simp only [deserializeDense1d] at ha
    split at ha
    · simp at ha
    · split at ha
      · simp at ha
      · split at ha
        · simp at ha
        · split at ha
          · simp at ha
          · rename_i d1 ws rest hm d2 ds hd
            cases ha
            have l1 := readMany_ok_length cnt ts ws rest hm
            have l2 := decodeAll_ok_length E ws ds hd
            show ds.length = sz
            omega

/-- A successfully decoded 2-D dense array is structurally complete. -/
theorem deserializeDense2d_wf {α : Type} (E : Encoding α) (ts : List Nat) :
    decodedOk DenseArray2d.wellFormed (deserializeDense2d E ts) := by
  rw [decodedOk_iff]
  intro a ha
  rcases ts with _ | ⟨r, _ | ⟨nr, _ | ⟨nc, _ | ⟨cnt, ts⟩⟩⟩⟩
  · simp [deserializeDense2d] at ha
  · simp [deserializeDense2d] at ha
  · simp [deserializeDense2d] at ha
  · simp [deserializeDense2d] at ha
  · simp only [deserializeDense2d] at ha
    split at ha
    · simp at ha
    · split at ha
      · simp at ha
      · split at ha
        · simp at ha
        · split at ha
          · simp at ha
          · rename_i d1 ws rest hm d2 ds hd
            cases ha
            have l1 := readMany_ok_length cnt ts ws rest hm
            have l2 := decodeAll_ok_length E ws ds hd
            show ds.length = nr * nc
            omega

/-- A successfully decoded CSR array is structurally complete. -/
theorem deserializeSparse2d_wf {α : Type} (E : Encoding α) (ts : List Nat) :
    decodedOk SparseArray2d.wellFormed (deserializeSparse2d E ts) := by
  rw [decodedOk_iff]
  intro a ha
  rcases ts with _ | ⟨nr, _ | ⟨nc, _ | ⟨nnz, ts⟩⟩⟩
  · simp [deserializeSparse2d] at ha
  · simp [deserializeSparse2d] at ha
  · simp [deserializeSparse2d] at ha
  · simp only [deserializeSparse2d] at ha
    split at ha
    · simp at ha
    · split at ha
      · simp at ha
      · split at ha
        · simp at ha
        · split at ha
          · simp at ha
          · rename_i d1 ris ts1 h1 d2 cis ts2 h2 d3 ws ts3 h3 d4 ds h4
            cases ha
            have l1 := readMany_ok_length (nr + 1) ts ris ts1 h1
            have l2 := readMany_ok_length nnz ts1 cis ts2 h2
            have l3 := readMany_ok_length nnz ts2 ws ts3 h3
            have l4 := decodeAll_ok_length E ws ds h4
            show ris.length = nr + 1 ∧ cis.length = ds.length
            exact ⟨by omega, by omega⟩

/-- C1: deserializing the bytes produced by serializing any well-formed dense
or sparse array yields an array equal to the original — same shape, same
element bit patterns, and for CSR arrays the same row pointers, column
indices and data — for every element encoding, hence for both single- and
double-precision element types. -/
theorem serializer_round_trip (α : Type) (E : Encoding α)
    (A1 : DenseArray1d α) (A2 : DenseArray2d α) (S : SparseArray2d α)
    (h1 : A1.wellFormed) (h2 : A2.wellFormed) (h3 : S.wellFormed) :
    deserializeDense1d E (serializeDense1d E A1) = .ok A1 ∧
      deserializeDense2d E (serializeDense2d E A2) = .ok A2 ∧
      deserializeSparse2d E (serializeSparse2d E S) = .ok S :=
  ⟨round_dense1d E A1 h1, round_dense2d E A2 h2, round_sparse2d E S h3.1 h3.2⟩

/-- Witness for C1 at concrete double-precision (64-bit) and
single-precision (32-bit) arrays. -/
theorem serializer_round_trip_witness :
    (witD1f64.wellFormed ∧ witD2f64.wellFormed ∧ witSf64.wellFormed) ∧
      deserializeDense1d (encodingBits 64) (serializeDense1d (encodingBits 64) witD1f64) =
        .ok witD1f64 ∧
      deserializeSparse2d (encodingBits 64) (serializeSparse2d (encodingBits 64) witSf64) =
        .ok witSf64 ∧
      deserializeDense1d (encodingBits 32) (serializeDense1d (encodingBits 32) witD1f32) =
        .ok witD1f32 :=
  ⟨⟨rfl, rfl, rfl, rfl⟩,
    (serializer_round_trip (Fin (2 ^ 64)) (encodingBits 64) witD1f64 witD2f64 witSf64
        rfl rfl ⟨rfl, rfl⟩).1,
    (serializer_round_trip (Fin (2 ^ 64)) (encodingBits 64) witD1f64 witD2f64 witSf64
        rfl rfl ⟨rfl, rfl⟩).2.2,
    (serializer_round_trip (Fin (2 ^ 32)) (encodingBits 32) witD1f32 ⟨0, 0, []⟩ ⟨0, 1, [0], [], []⟩
        rfl rfl ⟨rfl, rfl⟩).1⟩

/-- C2: on the test CSR example (row_indices=[0,2,4,7,8],
indices=[0,1,1,3,2,3,4,5], data=[10,20,30,40,50,60,70,80], 4 rows by 6 cols)
and dense vector [1,2,3,4,5,6], the row-view dot products are 50, 220, 740
and 480, both on the original array and on the array reloaded from a
serialize/deserialize cycle. -/
theorem sparse_dot_example_values :
    (sparseRowDot exampleDotArray (view_row exampleSparseArray 0) = 50 ∧
      sparseRowDot exampleDotArray (view_row exampleSparseArray 1) = 220 ∧
      sparseRowDot exampleDotArray (view_row exampleSparseArray 2) = 740 ∧
      sparseRowDot exampleDotArray (view_row exampleSparseArray 3) = 480) ∧
    deserializeSparse2d encodingInt (serializeSparse2d encodingInt exampleSparseArray) =
      .ok exampleSparseArray ∧
    (sparseRowDot exampleDotArray (view_row loadedSparseArray 0) = 50 ∧
      sparseRowDot exampleDotArray (view_row loadedSparseArray 1) = 220 ∧
      sparseRowDot exampleDotArray (view_row loadedSparseArray 2) = 740 ∧
      sparseRowDot exampleDotArray (view_row loadedSparseArray 3) = 480) :=
  ⟨⟨rfl, rfl, rfl, rfl⟩, rfl, ⟨rfl, rfl, rfl, rfl⟩⟩

/-- C7: dot on two dense arrays fails with DimensionMismatch exactly when the
dimensions differ; on matching dimensions it returns the accumulated dot
product without raising the condition. -/
theorem dot_dimension_check (T : Type) [Ring T] (x y : DenseArray1d T) :
    (x.size ≠ y.size → x.dot y = .error .dimensionMismatch) ∧
      (x.size = y.size →
        x.dot y =
          .ok (tick.dot x.size (fun i => x.data.getD i 0) (fun i => y.data.getD i 0))) := by
  constructor
  · intro h
    simp [DenseArray1d.dot, h]
  · intro h
    simp [DenseArray1d.dot, h]

/-- Witness for C7: a mismatched pair errors, a matched pair returns a value. -/
theorem dot_dimension_check_witness :
    DenseArray1d.dot (⟨1, [5]⟩ : DenseArray1d Int) ⟨2, [1, 2]⟩ =
        .error TickError.dimensionMismatch ∧
      DenseArray1d.dot (⟨2, [1, 2]⟩ : DenseArray1d Int) ⟨2, [3, 4]⟩ =
        .ok (tick.dot 2 (fun i => [1, 2].getD i 0) (fun i => [3, 4].getD i 0)) :=
  ⟨(dot_dimension_check Int ⟨1, [5]⟩ ⟨2, [1, 2]⟩).1 (by decide),
    (dot_dimension_check Int ⟨2, [1, 2]⟩ ⟨2, [3, 4]⟩).2 rfl⟩

/-- C8: for every input stream, each deserializer either surfaces an error or
returns a fully reconstructed, structurally complete array — never a
partially populated one. -/
theorem deserialize_atomic (α : Type) (E : Encoding α) (ts : List Nat) :
    decodedOk DenseArray1d.wellFormed (deserializeDense1d E ts) ∧
      decodedOk DenseArray2d.wellFormed (deserializeDense2d E ts) ∧
      decodedOk SparseArray2d.wellFormed (deserializeSparse2d E ts) :=
  ⟨deserializeDense1d_wf E ts, deserializeDense2d_wf E ts, deserializeSparse2d_wf E ts⟩
